import Mathlib

/-!
Verification of the drone-map AOI (area-of-interest) core: a shallow
embedding of the geometry module, the AOI state machine and the GeoJSON
shape-I/O adapter of `src/App.tsx`, together with proofs of the spec's
claims about them.  JavaScript numbers are modelled as real numbers; the
handlers' `alert(...)` calls are modelled as an `Option String` result
component.
-/

namespace DroneMap

/-- Internal point type (`interface LatLng { lat: number; lng: number }`). -/
structure LatLng where
  lat : ℝ
  lng : ℝ

/-- `type ViewType = 'street' | 'satellite'`. -/
inductive ViewType
  | street
  | satellite
deriving DecidableEq

/-- The values the `activeDrawTool` state variable takes (`'polygon' | 'pointer'`);
`null` is modelled by `Option.none` at use sites. -/
inductive DrawTool
  | polygon
  | pointer
deriving DecidableEq

/-- `const toRad = (deg) => (deg * Math.PI) / 180`. -/
noncomputable def toRad (deg : ℝ) : ℝ := deg * Real.pi / 180

/-- JavaScript `Math.atan2 y x` for real arguments (the standard
two-argument arctangent; all uses in this development have both
arguments nonnegative). -/
noncomputable def atan2 (y x : ℝ) : ℝ :=
  if 0 < x then Real.arctan (y / x)
  else if x < 0 then
    (if 0 ≤ y then Real.arctan (y / x) + Real.pi else Real.arctan (y / x) - Real.pi)
  else
    (if 0 < y then Real.pi / 2 else if y < 0 then -(Real.pi / 2) else 0)

/-- The local `si` computed inside `distanceKm`: the haversine intermediate
term `sin(dLat/2)^2 + cos(lat1)*cos(lat2)*sin(dLon/2)^2`. -/
noncomputable def haversineTerm (a b : LatLng) : ℝ :=
  let dLat := toRad (b.lat - a.lat)
  let dLon := toRad (b.lng - a.lng)
  let lat1 := toRad a.lat
  let lat2 := toRad b.lat
  Real.sin (dLat / 2) * Real.sin (dLat / 2) +
    Real.cos lat1 * Real.cos lat2 * Real.sin (dLon / 2) * Real.sin (dLon / 2)

/-- `function distanceKm(a, b)`: haversine great-circle distance on a
sphere of radius 6371 km. -/
noncomputable def distanceKm (a b : LatLng) : ℝ :=
  let si := haversineTerm a b
  let c := 2 * atan2 (Real.sqrt si) (Real.sqrt (1 - si))
  6371 * c

/-- The closed-ring accumulation loop shared by `perimeterKm` and `areaKm2`:
`for (i = 0; i < l.length; i++) acc += f(l[i], l[(i + 1) % l.length])`. -/
noncomputable def cyclicSum {α : Type} (d : α) (f : α → α → ℝ) (l : List α) : ℝ :=
  ∑ i in Finset.range l.length, f (l.getD i d) (l.getD ((i + 1) % l.length) d)

/-- `function perimeterKm(points)`: 0 for fewer than 2 points, otherwise the
sum of `distanceKm` over consecutive vertex pairs, wrapping around. -/
noncomputable def perimeterKm (points : List LatLng) : ℝ :=
  if points.length < 2 then 0
  else cyclicSum ⟨0, 0⟩ distanceKm points

/-- The spherical-Mercator projection step of `areaKm2`
(`x = R*lng*π/180`, `y = R*log(tan(π/4 + lat*π/360))`, `R = 6378137`). -/
noncomputable def project (p : LatLng) : ℝ × ℝ :=
  (6378137 * p.lng * Real.pi / 180,
    6378137 * Real.log (Real.tan (Real.pi / 4 + p.lat * Real.pi / 360)))

/-- The shoelace edge term of `areaKm2`: `a.x * b.y - b.x * a.y`. -/
noncomputable def cross (a b : ℝ × ℝ) : ℝ := a.1 * b.2 - b.1 * a.2

/-- `function areaKm2(points)`: 0 for fewer than 3 points, otherwise the
absolute shoelace sum over the spherical-Mercator projections, halved and
converted from m² to km². -/
noncomputable def areaKm2 (points : List LatLng) : ℝ :=
  if points.length < 3 then 0
  else
    let projected := points.map project
    let sum := cyclicSum (0, 0) cross projected
    (|sum| / 2) / 1000000

/-- The `App` component state, restricted to the fields the AOI state
machine, viewport and shape I/O read or write. -/
structure AppState where
  view : ViewType
  searchQuery : String
  selectedArea : String
  isDrawing : Bool
  drawnPolygon : List LatLng
  drawingPoints : List LatLng
  mapCenter : LatLng
  zoom : Int
  activeDrawTool : Option DrawTool
  isGridOn : Bool

/-- `const activeShape = drawnPolygon.length > 2 ? drawnPolygon
: drawingPoints.length > 2 ? drawingPoints : null`. -/
def activeShape (s : AppState) : Option (List LatLng) :=
  if 2 < s.drawnPolygon.length then some s.drawnPolygon
  else if 2 < s.drawingPoints.length then some s.drawingPoints
  else none

/-- The map-click handler of `MapController`: while drawing, append the
clicked point to the in-progress buffer. -/
def mapClick (p : LatLng) (s : AppState) : AppState :=
  if s.isDrawing then { s with drawingPoints := s.drawingPoints ++ [p] } else s

/-- `const toggleDrawing = () => ...`: toggling the polygon draw tool.
Off-toggle commits the buffer as the confirmed polygon when it has more
than 2 vertices, otherwise discards it; on-toggle clears both the
confirmed polygon and the buffer and activates drawing. -/
def toggleDrawing (s : AppState) : AppState :=
  if s.activeDrawTool = some DrawTool.polygon then
    { s with
      drawnPolygon := if 2 < s.drawingPoints.length then s.drawingPoints else s.drawnPolygon,
      drawingPoints := [], isDrawing := false, activeDrawTool := none }
  else
    { s with
      drawnPolygon := [], drawingPoints := [], isDrawing := true,
      activeDrawTool := some DrawTool.polygon }

/-- `Math.min(...xs)` over a nonempty spread list.  (JavaScript returns
`Infinity` on an empty argument list, which ℝ cannot represent; every use
below is guarded to nonempty lists.) -/
noncomputable def jsMin : List ℝ → ℝ
  | [] => 0
  | a :: t => t.foldl min a

/-- `Math.max(...xs)` over a nonempty spread list (see `jsMin`). -/
noncomputable def jsMax : List ℝ → ℝ
  | [] => 0
  | a :: t => t.foldl max a

/-- The bounding-box midpoint computation shared by `handleZoomToShape` and
`handleFileChange`: `((min lat + max lat)/2, (min lng + max lng)/2)`. -/
noncomputable def bboxCenter (pts : List LatLng) : LatLng :=
  ⟨(jsMin (pts.map LatLng.lat) + jsMax (pts.map LatLng.lat)) / 2,
    (jsMin (pts.map LatLng.lng) + jsMax (pts.map LatLng.lng)) / 2⟩

/-- `const handleZoomToShape = () => ...`: recenter the viewport on the
active shape's bounding-box midpoint at zoom 13; silently return when
there is no active shape.  The `Option String` component records alerts
(this handler never produces one). -/
noncomputable def handleZoomToShape (s : AppState) : AppState × Option String :=
  match activeShape s with
  | none => (s, none)
  | some pts =>
    if pts.length = 0 then (s, none)
    else ({ s with mapCenter := bboxCenter pts, zoom := 13 }, none)

/-- GeoJSON geometry objects as far as the import code distinguishes them:
`Polygon` (list of rings, each a list of `[lng, lat, ...]` position
arrays), `MultiPolygon`, and any other geometry type. -/
inductive Geom
  | polygon (coordinates : List (List (List ℝ)))
  | multiPolygon (coordinates : List (List (List (List ℝ))))
  | otherGeom

/-- A GeoJSON feature: its `geometry` member, which may be `null`. -/
structure Feature where
  geometry : Option Geom

/-- A parsed GeoJSON document as far as `handleFileChange` distinguishes
its `type`: `FeatureCollection`, `Feature`, bare `Polygon`, or anything
else. -/
inductive GeoDoc
  | featureCollection (features : List Feature)
  | feature (geometry : Option Geom)
  | polygonDoc (coordinates : List (List (List ℝ)))
  | otherDoc

/-- The `features.find` predicate in the import code: the feature has a
geometry of type `Polygon` or `MultiPolygon`. -/
def isPolygonFeature (f : Feature) : Bool :=
  match f.geometry with
  | some (Geom.polygon _) => true
  | some (Geom.multiPolygon _) => true
  | _ => false

/-- The coordinate-extraction logic of the `try` block in
`handleFileChange`: `Except.error` models a thrown exception (accessing
`.type` on a `null` geometry of a `Feature` document), `Except.ok none`
models `coords` remaining `null`/`undefined` (also the case of a
`MultiPolygon` with no member, where `coordinates[0]` is `undefined`). -/
def extractCoords : GeoDoc → Except String (Option (List (List (List ℝ))))
  | GeoDoc.featureCollection fs =>
    match fs.find? isPolygonFeature with
    | some f =>
      match f.geometry with
      | some (Geom.polygon c) => Except.ok (some c)
      | some (Geom.multiPolygon cs) => Except.ok cs.head?
      | _ => Except.ok none
    | none => Except.ok none
  | GeoDoc.feature none => Except.error "Failed to read GeoJSON file."
  | GeoDoc.feature (some g) =>
    match g with
    | Geom.polygon c => Except.ok (some c)
    | Geom.multiPolygon cs => Except.ok cs.head?
    | Geom.otherGeom => Except.ok none
  | GeoDoc.polygonDoc c => Except.ok (some c)
  | GeoDoc.otherDoc => Except.ok none

/-- `ring.map((c) => ({ lng: c[0], lat: c[1] }))` applied to one position:
swap a `[lng, lat]` pair into the internal `{lat, lng}` point.  (On a
position array shorter than 2 JavaScript would yield `undefined`
coordinates; we default to 0, a case no claim exercises.) -/
def posToPoint (c : List ℝ) : LatLng := ⟨c.getD 1 0, c.getD 0 0⟩

/-- `const handleFileChange = (e) => ...`: GeoJSON import.  `doc?` is the
parse result of the file's text (`none` when `JSON.parse` throws),
`fileName` the selected file's name.  Returns the new state and the alert
message, if any. -/
noncomputable def handleFileChange (doc? : Option GeoDoc) (fileName : String)
    (s : AppState) : AppState × Option String :=
  match doc? with
  | none => (s, some "Failed to read GeoJSON file.")
  | some doc =>
    match extractCoords doc with
    | Except.error msg => (s, some msg)
    | Except.ok none => (s, some "No polygon geometry found in GeoJSON.")
    | Except.ok (some coords) =>
      if coords.length = 0 then (s, some "No polygon geometry found in GeoJSON.")
      else
        let ring := coords.getD 0 []
        let polygon := ring.map posToPoint
        ({ s with
            drawnPolygon := polygon, drawingPoints := [], isDrawing := false,
            activeDrawTool := none, mapCenter := bboxCenter polygon, zoom := 12,
            selectedArea := fileName }, none)

/-- `const handleExportGeoJSON = () => ...`: export the active shape as a
GeoJSON `Feature` with `Polygon` geometry whose single ring is the vertex
list in `[lng, lat]` order with the first vertex repeated at the end;
alert (and produce no document) when there is no qualifying shape.  The
feature's `properties` object does not affect geometry and is not
modelled. -/
noncomputable def handleExportGeoJSON (s : AppState) : Option GeoDoc × Option String :=
  match activeShape s with
  | none => (none, some "No polygon to export.")
  | some shape =>
    if shape.length < 3 then (none, some "No polygon to export.")
    else
      let coords := shape.map (fun p => [p.lng, p.lat])
      let closed := coords ++ [coords.getD 0 []]
      (some (GeoDoc.feature (some (Geom.polygon [closed]))), none)

/-- The open-polyline edge sum `f p0 p1 + f p1 p2 + ...` (no wrap-around);
used to reason about `cyclicSum`. -/
noncomputable def pathSum {α : Type} (f : α → α → ℝ) : List α → ℝ
  | [] => 0
  | [_] => 0
  | x :: y :: t => f x y + pathSum f (y :: t)

/-- The initial component state (`useState` initialisers in `App`). -/
noncomputable def emptyState : AppState :=
  { view := ViewType.satellite, searchQuery := "", selectedArea := "",
    isDrawing := false, drawnPolygon := [], drawingPoints := [],
    mapCenter := ⟨20, 0⟩, zoom := 2, activeDrawTool := none, isGridOn := false }

/-- The import failure condition of `handleFileChange`: no parsed document
(invalid JSON), a thrown extraction (`Feature` with `null` geometry), a
document with no recognizable polygon geometry, or an empty coordinates
array. -/
def importRejected : Option GeoDoc → Bool
  | none => true
  | some doc =>
    match extractCoords doc with
    | Except.error _ => true
    | Except.ok none => true
    | Except.ok (some coords) => coords.isEmpty

theorem sum_range_shift_one (n : ℕ) (g : ℕ → ℝ) :
    ∑ i in Finset.range n, g ((i + 1) % n) = ∑ i in Finset.range n, g i := by
  cases n with
  | zero => simp
  | succ m =>
    rw [← Fin.sum_univ_eq_sum_range (fun i => g ((i + 1) % (m + 1))) (m + 1),
      ← Fin.sum_univ_eq_sum_range g (m + 1)]
    have h : ∀ i : Fin (m + 1),
        g ((i.val + 1) % (m + 1)) = (fun j : Fin (m + 1) => g j.val) (finRotate (m + 1) i) := by
      intro i
      simp only [finRotate_succ_apply, Fin.val_add, Fin.val_one', Nat.add_mod_mod]
    rw [Finset.sum_congr rfl (fun i _ => h i)]
    exact Equiv.sum_comp (finRotate (m + 1)) (fun j : Fin (m + 1) => g j.val)

theorem sum_range_shift (n k : ℕ) (g : ℕ → ℝ) :
    ∑ i in Finset.range n, g ((i + k) % n) = ∑ i in Finset.range n, g i := by
  induction k with
  | zero =>
    refine Finset.sum_congr rfl (fun i hi => ?_)
    rw [Nat.add_zero, Nat.mod_eq_of_lt (Finset.mem_range.mp hi)]
  | succ k ih =>
    have step := sum_range_shift_one n (fun j => g ((j + k) % n))
    simp only [] at step
    calc ∑ i in Finset.range n, g ((i + (k + 1)) % n)
        = ∑ i in Finset.range n, g (((i + 1) % n + k) % n) := by
          refine Finset.sum_congr rfl (fun i _ => ?_)
          rw [Nat.mod_add_mod]
          have he : i + 1 + k = i + (k + 1) := by omega
          rw [he]
      _ = ∑ i in Finset.range n, g ((i + k) % n) := step
      _ = ∑ i in Finset.range n, g i := ih

theorem getD_rotate {α : Type} (l : List α) (d : α) (k i : ℕ) (hi : i < l.length) :
    (l.rotate k).getD i d = l.getD ((i + k) % l.length) d := by
  have hlen : 0 < l.length := Nat.lt_of_le_of_lt (Nat.zero_le i) hi
  have h1 : i < (l.rotate k).length := by rw [List.length_rotate]; exact hi
  rw [List.getD_eq_getElem _ _ h1, List.getD_eq_getElem _ _ (Nat.mod_lt _ hlen)]
  exact List.getElem_rotate l k i h1

theorem cyclicSum_rotate {α : Type} (d : α) (f : α → α → ℝ) (l : List α) (k : ℕ) :
    cyclicSum d f (l.rotate k) = cyclicSum d f l := by
  unfold cyclicSum
  rw [List.length_rotate]
  have hcongr : ∀ i ∈ Finset.range l.length,
      f ((l.rotate k).getD i d) ((l.rotate k).getD ((i + 1) % l.length) d)
        = (fun j => f (l.getD j d) (l.getD ((j + 1) % l.length) d)) ((i + k) % l.length) := by
    intro i hi
    have hi' := Finset.mem_range.mp hi
    have hlen : 0 < l.length := Nat.lt_of_le_of_lt (Nat.zero_le i) hi'
    have h2 : (i + 1) % l.length < l.length := Nat.mod_lt _ hlen
    rw [getD_rotate l d k i hi', getD_rotate l d k _ h2]
    have harg : ((i + 1) % l.length + k) % l.length = ((i + k) % l.length + 1) % l.length := by
      rw [Nat.mod_add_mod, Nat.mod_add_mod]
      congr 1
      omega
    rw [harg]
  rw [Finset.sum_congr rfl hcongr,
    sum_range_shift l.length k (fun j => f (l.getD j d) (l.getD ((j + 1) % l.length) d))]

theorem getD_reverse {α : Type} (l : List α) (d : α) (i : ℕ) (hi : i < l.length) :
    l.reverse.getD i d = l.getD (l.length - 1 - i) d := by
  have h1 : i < l.reverse.length := by rw [List.length_reverse]; exact hi
  have h2 : l.length - 1 - i < l.length := by omega
  rw [List.getD_eq_getElem _ _ h1, List.getD_eq_getElem _ _ h2]
  exact List.getElem_reverse h1

theorem cyclicSum_reverse {α : Type} (d : α) (f : α → α → ℝ) (l : List α) :
    cyclicSum d f l.reverse = cyclicSum d (fun a b => f b a) l := by
  unfold cyclicSum
  rw [List.length_reverse]
  have step1 : ∀ i ∈ Finset.range l.length,
      f (l.reverse.getD i d) (l.reverse.getD ((i + 1) % l.length) d)
        = (fun j => f (l.getD j d) (l.getD ((j + (l.length - 1)) % l.length) d))
            (l.length - 1 - i) := by
    intro i hi
    have hi' := Finset.mem_range.mp hi
    have hn : 0 < l.length := by omega
    have h2 : (i + 1) % l.length < l.length := Nat.mod_lt _ hn
    rw [getD_reverse l d i hi', getD_reverse l d _ h2]
    have harg : l.length - 1 - (i + 1) % l.length
        = (l.length - 1 - i + (l.length - 1)) % l.length := by
      rcases Nat.lt_or_ge (i + 1) l.length with h | h
      · rw [Nat.mod_eq_of_lt h]
        have he : l.length - 1 - i + (l.length - 1) = (l.length - 1 - i - 1) + l.length := by
          omega
        rw [he, Nat.add_mod_right, Nat.mod_eq_of_lt (by omega)]
        omega
      · have hi1 : i + 1 = l.length := by omega
        have h0 : l.length - 1 - i = 0 := by omega
        rw [hi1, Nat.mod_self, h0, Nat.zero_add, Nat.mod_eq_of_lt (by omega)]
        omega
    rw [harg]
  rw [Finset.sum_congr rfl step1,
    Finset.sum_range_reflect
      (fun j => f (l.getD j d) (l.getD ((j + (l.length - 1)) % l.length) d)) l.length]
  have step2 : ∀ j ∈ Finset.range l.length,
      f (l.getD j d) (l.getD ((j + (l.length - 1)) % l.length) d)
        = (fun j => f (l.getD ((j + 1) % l.length) d) (l.getD j d))
            ((j + (l.length - 1)) % l.length) := by
    intro j hj
    have hj' := Finset.mem_range.mp hj
    have hn : 0 < l.length := by omega
    have harg : ((j + (l.length - 1)) % l.length + 1) % l.length = j := by
      rw [Nat.mod_add_mod]
      have he : j + (l.length - 1) + 1 = j + l.length := by omega
      rw [he, Nat.add_mod_right, Nat.mod_eq_of_lt hj']
    simp only []
    rw [harg]
  rw [Finset.sum_congr rfl step2,
    sum_range_shift l.length (l.length - 1)
      (fun j => f (l.getD ((j + 1) % l.length) d) (l.getD j d))]

theorem pathSum_eq_sum_range {α : Type} (f : α → α → ℝ) (d : α) (l : List α) :
    pathSum f l = ∑ i in Finset.range (l.length - 1), f (l.getD i d) (l.getD (i + 1) d) := by
  induction l with
  | nil => simp [pathSum]
  | cons x t ih =>
    cases t with
    | nil => simp [pathSum]
    | cons y t2 =>
      rw [show pathSum f (x :: y :: t2) = f x y + pathSum f (y :: t2) from rfl, ih]
      rw [show (x :: y :: t2).length - 1 = t2.length + 1 from by simp]
      rw [Finset.sum_range_succ']
      simp only [List.getD_cons_succ, List.getD_cons_zero, List.length_cons,
        Nat.add_sub_cancel]
      ring

theorem cyclicSum_eq_pathSum {α : Type} (d : α) (f : α → α → ℝ) (l : List α) (hl : l ≠ []) :
    cyclicSum d f l = pathSum f l + f (l.getD (l.length - 1) d) (l.getD 0 d) := by
  unfold cyclicSum
  have hn : 0 < l.length := List.length_pos.mpr hl
  obtain ⟨m, hm⟩ : ∃ m, l.length = m + 1 := ⟨l.length - 1, by omega⟩
  rw [hm, Finset.sum_range_succ, Nat.mod_self]
  congr 1
  · rw [pathSum_eq_sum_range f d l, hm]
    simp only [Nat.add_sub_cancel]
    refine Finset.sum_congr rfl (fun i hi => ?_)
    have : i + 1 < m + 1 := by
      have := Finset.mem_range.mp hi
      omega
    rw [Nat.mod_eq_of_lt this]

theorem pathSum_snoc {α : Type} (f : α → α → ℝ) (d : α) (x : α) (xs : List α) (y : α) :
    pathSum f (x :: xs ++ [y]) = pathSum f (x :: xs) + f ((x :: xs).getD xs.length d) y := by
  induction xs generalizing x with
  | nil => simp [pathSum]
  | cons z t ih =>
    rw [show x :: (z :: t) ++ [y] = x :: (z :: (t ++ [y])) from rfl]
    rw [show pathSum f (x :: z :: (t ++ [y])) = f x z + pathSum f (z :: (t ++ [y])) from rfl]
    rw [show (z : α) :: (t ++ [y]) = z :: t ++ [y] from rfl, ih z]
    rw [show pathSum f (x :: z :: t) = f x z + pathSum f (z :: t) from rfl]
    rw [show (z :: t).length = t.length + 1 from rfl, List.getD_cons_succ]
    ring

theorem cyclicSum_snoc_head {α : Type} (d : α) (f : α → α → ℝ) (p : α) (m : List α) :
    cyclicSum d f (p :: (m ++ [p])) = cyclicSum d f (p :: m) + f p p := by
  rw [cyclicSum_eq_pathSum d f _ (by simp), cyclicSum_eq_pathSum d f _ (by simp)]
  have hlast : (p :: (m ++ [p])).getD ((p :: (m ++ [p])).length - 1) d = p := by
    rw [show (p :: (m ++ [p])) = (p :: m) ++ [p] from by simp]
    rw [show ((p :: m) ++ [p]).length - 1 = (p :: m).length from by simp]
    rw [List.getD_append_right _ _ _ _ (Nat.le_refl _)]
    simp
  have hpath : pathSum f (p :: (m ++ [p])) = pathSum f (p :: m) + f ((p :: m).getD m.length d) p := by
    rw [show p :: (m ++ [p]) = p :: m ++ [p] from rfl]
    exact pathSum_snoc f d p m p
  rw [hlast, hpath]
  rw [show (p :: (m ++ [p])).getD 0 d = p from rfl, show (p :: m).getD 0 d = p from rfl]
  rw [show (p :: m).length - 1 = m.length from by simp]

theorem cyclicSum_dup {α : Type} (d : α) (f : α → α → ℝ) (l1 l2 : List α) (p : α) :
    cyclicSum d f (l1 ++ p :: p :: l2) = cyclicSum d f (l1 ++ p :: l2) + f p p := by
  have e1 : l1 ++ p :: p :: l2 = (l1 ++ [p]) ++ (p :: l2) := by simp
  have e2 : l1 ++ p :: l2 = (l1 ++ [p]) ++ l2 := by simp
  have r1 : ((l1 ++ [p]) ++ (p :: l2)).rotate (l1 ++ [p]).length = (p :: l2) ++ (l1 ++ [p]) := by
    rw [List.rotate_eq_drop_append_take (by simp), List.drop_left, List.take_left]
  have r2 : ((l1 ++ [p]) ++ l2).rotate (l1 ++ [p]).length = l2 ++ (l1 ++ [p]) := by
    rw [List.rotate_eq_drop_append_take (by simp), List.drop_left, List.take_left]
  have c1 : cyclicSum d f (l1 ++ p :: p :: l2) = cyclicSum d f (p :: ((l2 ++ l1) ++ [p])) := by
    rw [e1, ← cyclicSum_rotate d f ((l1 ++ [p]) ++ (p :: l2)) (l1 ++ [p]).length, r1]
    congr 1
    simp
  have c2 : cyclicSum d f (l1 ++ p :: l2) = cyclicSum d f (p :: (l2 ++ l1)) := by
    rw [e2, ← cyclicSum_rotate d f ((l1 ++ [p]) ++ l2) (l1 ++ [p]).length, r2]
    rw [show l2 ++ (l1 ++ [p]) = (l2 ++ l1) ++ [p] from by simp]
    rw [show ((l2 ++ l1) ++ [p] : List α) = (p :: (l2 ++ l1)).rotate 1 from by
      rw [List.rotate_cons_succ, List.rotate_zero]]
    rw [cyclicSum_rotate]
  rw [c1, c2, cyclicSum_snoc_head]

theorem haversineTerm_comm (a b : LatLng) : haversineTerm a b = haversineTerm b a := by
  simp only [haversineTerm]
  have slat : Real.sin (toRad (b.lat - a.lat) / 2) = -Real.sin (toRad (a.lat - b.lat) / 2) := by
    rw [show toRad (b.lat - a.lat) / 2 = -(toRad (a.lat - b.lat) / 2) by unfold toRad; ring,
      Real.sin_neg]
  have slng : Real.sin (toRad (b.lng - a.lng) / 2) = -Real.sin (toRad (a.lng - b.lng) / 2) := by
    rw [show toRad (b.lng - a.lng) / 2 = -(toRad (a.lng - b.lng) / 2) by unfold toRad; ring,
      Real.sin_neg]
  rw [slat, slng]
  ring

theorem distanceKm_comm (a b : LatLng) : distanceKm a b = distanceKm b a := by
  simp only [distanceKm]
  rw [haversineTerm_comm]

theorem atan2_zero_one : atan2 0 1 = 0 := by
  unfold atan2
  rw [if_pos (by norm_num : (0:ℝ) < 1)]
  norm_num

theorem haversineTerm_self (p : LatLng) : haversineTerm p p = 0 := by
  simp only [haversineTerm, sub_self]
  simp [toRad]

theorem distanceKm_self (p : LatLng) : distanceKm p p = 0 := by
  simp only [distanceKm, haversineTerm_self]
  rw [Real.sqrt_zero, show (1:ℝ) - 0 = 1 by norm_num, Real.sqrt_one, atan2_zero_one]
  ring

theorem toRad_mem_Icc (x : ℝ) (h1 : -90 ≤ x) (h2 : x ≤ 90) :
    toRad x ∈ Set.Icc (-(Real.pi / 2)) (Real.pi / 2) := by
  have hp := Real.pi_pos
  unfold toRad
  constructor
  · nlinarith
  · nlinarith

theorem haversineTerm_nonneg (a b : LatLng) (ha1 : -90 ≤ a.lat) (ha2 : a.lat ≤ 90)
    (hb1 : -90 ≤ b.lat) (hb2 : b.lat ≤ 90) : 0 ≤ haversineTerm a b := by
  have hca : 0 ≤ Real.cos (toRad a.lat) :=
    Real.cos_nonneg_of_mem_Icc (toRad_mem_Icc _ ha1 ha2)
  have hcb : 0 ≤ Real.cos (toRad b.lat) :=
    Real.cos_nonneg_of_mem_Icc (toRad_mem_Icc _ hb1 hb2)
  simp only [haversineTerm]
  nlinarith [mul_self_nonneg (Real.sin (toRad (b.lat - a.lat) / 2)),
    mul_self_nonneg (Real.sin (toRad (b.lng - a.lng) / 2)), mul_nonneg hca hcb]

theorem sin_half_mul_self (x : ℝ) :
    Real.sin (x / 2) * Real.sin (x / 2) = (1 - Real.cos x) / 2 := by
  have h : Real.cos (2 * (x / 2)) = 1 - 2 * Real.sin (x / 2) ^ 2 := by
    rw [Real.cos_two_mul', Real.cos_sq']
    ring
  rw [show (2:ℝ) * (x / 2) = x by ring] at h
  nlinarith [h]

theorem haversineTerm_le_one (a b : LatLng) (ha1 : -90 ≤ a.lat) (ha2 : a.lat ≤ 90)
    (hb1 : -90 ≤ b.lat) (hb2 : b.lat ≤ 90) : haversineTerm a b ≤ 1 := by
  have hca : 0 ≤ Real.cos (toRad a.lat) :=
    Real.cos_nonneg_of_mem_Icc (toRad_mem_Icc _ ha1 ha2)
  have hcb : 0 ≤ Real.cos (toRad b.lat) :=
    Real.cos_nonneg_of_mem_Icc (toRad_mem_Icc _ hb1 hb2)
  simp only [haversineTerm]
  rw [show toRad (b.lat - a.lat) = toRad b.lat - toRad a.lat by unfold toRad; ring,
    sin_half_mul_self (toRad b.lat - toRad a.lat)]
  have hsin2 : Real.sin (toRad (b.lng - a.lng) / 2) * Real.sin (toRad (b.lng - a.lng) / 2) ≤ 1 := by
    have h := Real.sin_sq_le_one (toRad (b.lng - a.lng) / 2)
    nlinarith [h]
  have hcos_sub : Real.cos (toRad b.lat - toRad a.lat)
      = Real.cos (toRad b.lat) * Real.cos (toRad a.lat)
        + Real.sin (toRad b.lat) * Real.sin (toRad a.lat) := Real.cos_sub _ _
  have hcos_add : Real.cos (toRad a.lat + toRad b.lat)
      = Real.cos (toRad a.lat) * Real.cos (toRad b.lat)
        - Real.sin (toRad a.lat) * Real.sin (toRad b.lat) := Real.cos_add _ _
  have hle : Real.cos (toRad a.lat + toRad b.lat) ≤ 1 := Real.cos_le_one _
  nlinarith [mul_nonneg hca hcb,
    mul_self_nonneg (Real.sin (toRad (b.lng - a.lng) / 2)), hsin2]

theorem atan2_eq_zero_iff_of_nonneg (y x : ℝ) (hy : 0 ≤ y) (hx : 0 ≤ x) :
    atan2 y x = 0 ↔ y = 0 := by
  unfold atan2
  rcases lt_or_eq_of_le hx with hx' | hx'
  · rw [if_pos hx', Real.arctan_eq_zero_iff]
    rw [div_eq_zero_iff]
    constructor
    · rintro (h | h)
      · exact h
      · exact absurd h (ne_of_gt hx')
    · intro h
      exact Or.inl h
  · rw [if_neg (by rw [← hx']; exact lt_irrefl 0), if_neg (by rw [← hx']; exact lt_irrefl 0)]
    rcases lt_or_eq_of_le hy with hy' | hy'
    · rw [if_pos hy']
      have hp := Real.pi_pos
      constructor
      · intro h
        exfalso
        linarith
      · intro h
        exfalso
        linarith
    · rw [if_neg (by rw [← hy']; exact lt_irrefl 0), if_neg (by rw [← hy']; exact lt_irrefl 0)]
      exact ⟨fun _ => hy'.symm, fun _ => rfl⟩

theorem distanceKm_eq_zero_iff_term (a b : LatLng) (hsi : 0 ≤ haversineTerm a b) :
    distanceKm a b = 0 ↔ haversineTerm a b = 0 := by
  simp only [distanceKm]
  constructor
  · intro h
    have h2 : atan2 (Real.sqrt (haversineTerm a b)) (Real.sqrt (1 - haversineTerm a b)) = 0 := by
      linarith
    have h3 := (atan2_eq_zero_iff_of_nonneg _ _ (Real.sqrt_nonneg _) (Real.sqrt_nonneg _)).mp h2
    have h4 := Real.sqrt_eq_zero'.mp h3
    linarith
  · intro h
    rw [h, Real.sqrt_zero, show (1:ℝ) - 0 = 1 by norm_num, Real.sqrt_one, atan2_zero_one]
    ring

theorem haversineTerm_eq_zero_iff (a b : LatLng)
    (ha1 : -90 < a.lat) (ha2 : a.lat < 90) (hb1 : -90 < b.lat) (hb2 : b.lat < 90)
    (ha3 : -180 ≤ a.lng) (ha4 : a.lng < 180) (hb3 : -180 ≤ b.lng) (hb4 : b.lng < 180) :
    haversineTerm a b = 0 ↔ a = b := by
  have hp := Real.pi_pos
  constructor
  · intro h
    simp only [haversineTerm] at h
    have hca : 0 < Real.cos (toRad a.lat) := by
      refine Real.cos_pos_of_mem_Ioo ⟨?_, ?_⟩ <;> (unfold toRad; nlinarith)
    have hcb : 0 < Real.cos (toRad b.lat) := by
      refine Real.cos_pos_of_mem_Ioo ⟨?_, ?_⟩ <;> (unfold toRad; nlinarith)
    have hs1 : Real.sin (toRad (b.lat - a.lat) / 2) * Real.sin (toRad (b.lat - a.lat) / 2) = 0 := by
      nlinarith [mul_self_nonneg (Real.sin (toRad (b.lat - a.lat) / 2)),
        mul_self_nonneg (Real.sin (toRad (b.lng - a.lng) / 2)), mul_pos hca hcb]
    have hs2 : Real.sin (toRad (b.lng - a.lng) / 2) * Real.sin (toRad (b.lng - a.lng) / 2) = 0 := by
      have hC : Real.cos (toRad a.lat) * Real.cos (toRad b.lat)
          * (Real.sin (toRad (b.lng - a.lng) / 2) * Real.sin (toRad (b.lng - a.lng) / 2)) = 0 := by
        nlinarith [hs1]
      rcases mul_eq_zero.mp hC with h' | h'
      · exact absurd h' (ne_of_gt (mul_pos hca hcb))
      · exact h'
    have hlat0 : Real.sin (toRad (b.lat - a.lat) / 2) = 0 := mul_self_eq_zero.mp hs1
    have hlng0 : Real.sin (toRad (b.lng - a.lng) / 2) = 0 := mul_self_eq_zero.mp hs2
    have hlat : b.lat = a.lat := by
      have hb1' : -Real.pi < toRad (b.lat - a.lat) / 2 := by unfold toRad; nlinarith
      have hb2' : toRad (b.lat - a.lat) / 2 < Real.pi := by unfold toRad; nlinarith
      have h0 := (Real.sin_eq_zero_iff_of_lt_of_lt hb1' hb2').mp hlat0
      have : (b.lat - a.lat) * Real.pi = 0 := by
        unfold toRad at h0
        linarith
      rcases mul_eq_zero.mp this with h' | h'
      · linarith
      · exact absurd h' (ne_of_gt hp)
    have hlng : b.lng = a.lng := by
      have hb1' : -Real.pi < toRad (b.lng - a.lng) / 2 := by unfold toRad; nlinarith
      have hb2' : toRad (b.lng - a.lng) / 2 < Real.pi := by unfold toRad; nlinarith
      have h0 := (Real.sin_eq_zero_iff_of_lt_of_lt hb1' hb2').mp hlng0
      have : (b.lng - a.lng) * Real.pi = 0 := by
        unfold toRad at h0
        linarith
      rcases mul_eq_zero.mp this with h' | h'
      · linarith
      · exact absurd h' (ne_of_gt hp)
    cases a with
    | mk alat alng =>
      cases b with
      | mk blat blng =>
        simp only [LatLng.mk.injEq]
        simp only [] at hlat hlng
        exact ⟨hlat.symm, hlng.symm⟩
  · intro h
    rw [h]
    exact haversineTerm_self b

theorem cyclicSum_flip_distance (l : List LatLng) :
    cyclicSum ⟨0, 0⟩ (fun a b => distanceKm b a) l = cyclicSum ⟨0, 0⟩ distanceKm l := by
  unfold cyclicSum
  exact Finset.sum_congr rfl (fun i _ => distanceKm_comm _ _)

theorem cyclicSum_flip_cross (m : List (ℝ × ℝ)) :
    cyclicSum (0, 0) (fun a b => cross b a) m = -cyclicSum (0, 0) cross m := by
  unfold cyclicSum
  rw [← Finset.sum_neg_distrib]
  refine Finset.sum_congr rfl (fun i _ => ?_)
  unfold cross
  ring

theorem perimeterKm_rotate (l : List LatLng) (k : ℕ) :
    perimeterKm (l.rotate k) = perimeterKm l := by
  unfold perimeterKm
  rw [List.length_rotate, cyclicSum_rotate]

theorem perimeterKm_reverse (l : List LatLng) :
    perimeterKm l.reverse = perimeterKm l := by
  unfold perimeterKm
  rw [List.length_reverse, cyclicSum_reverse, cyclicSum_flip_distance]

theorem areaKm2_rotate (l : List LatLng) (k : ℕ) :
    areaKm2 (l.rotate k) = areaKm2 l := by
  simp only [areaKm2]
  rw [List.length_rotate, List.map_rotate, cyclicSum_rotate]

theorem areaKm2_reverse (l : List LatLng) :
    areaKm2 l.reverse = areaKm2 l := by
  simp only [areaKm2]
  rw [List.length_reverse]
  rw [show l.reverse.map project = (l.map project).reverse from by
    rw [List.map_reverse]]
  rw [cyclicSum_reverse, cyclicSum_flip_cross, abs_neg]

theorem activeShape_length (s : AppState) (l : List LatLng)
    (h : activeShape s = some l) : 2 < l.length := by
  unfold activeShape at h
  by_cases h1 : 2 < s.drawnPolygon.length
  · rw [if_pos h1] at h
    rw [← Option.some.inj h]
    exact h1
  · rw [if_neg h1] at h
    by_cases h2 : 2 < s.drawingPoints.length
    · rw [if_pos h2] at h
      rw [← Option.some.inj h]
      exact h2
    · rw [if_neg h2] at h
      exact absurd h (by simp)

/-- C1 (counterexample): the claim says that after entering drawing mode,
clicking two vertices and toggling the draw tool off, the confirmed polygon
equals the previously confirmed polygon `P`.  In the code, entering drawing
mode executes `setDrawnPolygon([])`, discarding `P`; with
`P = [(0,0),(0,1),(1,0)]` and clicks `(2,2),(3,3)` the confirmed polygon
afterwards is `[]`, not `P`. -/
theorem c1_counterexample :
    (toggleDrawing (mapClick ⟨3, 3⟩ (mapClick ⟨2, 2⟩ (toggleDrawing
        { emptyState with drawnPolygon := [⟨0, 0⟩, ⟨0, 1⟩, ⟨1, 0⟩] })))).drawnPolygon
      ≠ ({ emptyState with
            drawnPolygon := [⟨0, 0⟩, ⟨0, 1⟩, ⟨1, 0⟩] } : AppState).drawnPolygon := by
  simp [toggleDrawing, mapClick, emptyState]

/-- C1 (amended): starting from any state not already in polygon-drawing mode,
entering drawing mode (which discards the previously confirmed polygon),
appending two vertices by map clicks and toggling the draw tool off leaves the
confirmed polygon empty, the in-progress buffer empty, and drawing inactive. -/
theorem c1_two_clicks_then_toggle_off (s : AppState) (p1 p2 : LatLng)
    (h : s.activeDrawTool ≠ some DrawTool.polygon) :
    (toggleDrawing (mapClick p2 (mapClick p1 (toggleDrawing s)))).drawnPolygon = [] ∧
    (toggleDrawing (mapClick p2 (mapClick p1 (toggleDrawing s)))).drawingPoints = [] ∧
    (toggleDrawing (mapClick p2 (mapClick p1 (toggleDrawing s)))).isDrawing = false ∧
    (toggleDrawing (mapClick p2 (mapClick p1 (toggleDrawing s)))).activeDrawTool = none := by
  unfold toggleDrawing
  rw [if_neg h]
  simp [mapClick]

/-- C1 witness: the amended transition evaluated at the initial state with
clicks `(1,1)` and `(2,2)`. -/
theorem c1_two_clicks_then_toggle_off_witness :
    emptyState.activeDrawTool ≠ some DrawTool.polygon ∧
    (toggleDrawing (mapClick ⟨2, 2⟩ (mapClick ⟨1, 1⟩
        (toggleDrawing emptyState)))).drawnPolygon = [] ∧
    (toggleDrawing (mapClick ⟨2, 2⟩ (mapClick ⟨1, 1⟩
        (toggleDrawing emptyState)))).drawingPoints = [] :=
  ⟨by simp [emptyState],
    (c1_two_clicks_then_toggle_off emptyState ⟨1, 1⟩ ⟨2, 2⟩ (by simp [emptyState])).1,
    (c1_two_clicks_then_toggle_off emptyState ⟨1, 1⟩ ⟨2, 2⟩ (by simp [emptyState])).2.1⟩

/-- C4: with the polygon draw tool active and an in-progress buffer of at least
3 vertices, toggling the draw tool off makes the buffer the confirmed polygon,
empties the buffer and leaves drawing mode inactive; no other state field
changes. -/
theorem c4_toggle_off_commits_buffer (s : AppState)
    (h : s.activeDrawTool = some DrawTool.polygon) (h3 : 3 ≤ s.drawingPoints.length) :
    toggleDrawing s
      = { s with
            drawnPolygon := s.drawingPoints,
            drawingPoints := [],
            isDrawing := false,
            activeDrawTool := none } := by
  unfold toggleDrawing
  rw [if_pos h, if_pos (by omega)]

/-- C4 witness: committing the concrete buffer `[(0,0),(0,1),(1,0)]`. -/
theorem c4_toggle_off_commits_buffer_witness :
    3 ≤ ({ emptyState with
            activeDrawTool := some DrawTool.polygon,
            drawingPoints := [⟨0, 0⟩, ⟨0, 1⟩, ⟨1, 0⟩] } : AppState).drawingPoints.length ∧
    (toggleDrawing { emptyState with
        activeDrawTool := some DrawTool.polygon,
        drawingPoints := [⟨0, 0⟩, ⟨0, 1⟩, ⟨1, 0⟩] }).drawnPolygon
      = [⟨0, 0⟩, ⟨0, 1⟩, ⟨1, 0⟩] ∧
    (toggleDrawing { emptyState with
        activeDrawTool := some DrawTool.polygon,
        drawingPoints := [⟨0, 0⟩, ⟨0, 1⟩, ⟨1, 0⟩] }).isDrawing = false := by
  refine ⟨by simp, ?_, ?_⟩
  · rw [c4_toggle_off_commits_buffer _ (by simp) (by simp)]
  · rw [c4_toggle_off_commits_buffer _ (by simp) (by simp)]

/-- C3 (counterexample): the claim says the stats/export/recenter operations
operate on the confirmed polygon whenever it is non-empty.  In the code the
confirmed polygon is only used when it has more than 2 vertices: with the
(import-reachable) confirmed polygon `[(0,0),(0,1)]` and empty buffer, the
active shape is `none` and export aborts with the no-shape alert even though
the confirmed polygon is non-empty. -/
theorem c3_counterexample :
    ({ emptyState with drawnPolygon := [⟨0, 0⟩, ⟨0, 1⟩] } : AppState).drawnPolygon ≠ [] ∧
    activeShape { emptyState with drawnPolygon := [⟨0, 0⟩, ⟨0, 1⟩] } = none ∧
    handleExportGeoJSON { emptyState with drawnPolygon := [⟨0, 0⟩, ⟨0, 1⟩] }
      = (none, some "No polygon to export.") := by
  refine ⟨by simp, ?_, ?_⟩
  · simp [activeShape, emptyState]
  · simp [handleExportGeoJSON, activeShape, emptyState]

/-- C3 (amended): the active shape is the confirmed polygon when it has at
least 3 vertices, else the in-progress buffer when it has at least 3 vertices,
else there is no shape: export then aborts with a user-visible alert and
recenter-to-shape is a silent no-op. -/
theorem c3_active_shape_resolution (s : AppState) :
    (3 ≤ s.drawnPolygon.length → activeShape s = some s.drawnPolygon) ∧
    (s.drawnPolygon.length < 3 → 3 ≤ s.drawingPoints.length →
      activeShape s = some s.drawingPoints) ∧
    (s.drawnPolygon.length < 3 → s.drawingPoints.length < 3 →
      activeShape s = none ∧
      handleExportGeoJSON s = (none, some "No polygon to export.") ∧
      handleZoomToShape s = (s, none)) := by
  refine ⟨?_, ?_, ?_⟩
  · intro h
    unfold activeShape
    rw [if_pos (by omega)]
  · intro h1 h2
    unfold activeShape
    rw [if_neg (by omega), if_pos (by omega)]
  · intro h1 h2
    have hnone : activeShape s = none := by
      unfold activeShape
      rw [if_neg (by omega), if_neg (by omega)]
    refine ⟨hnone, ?_, ?_⟩
    · unfold handleExportGeoJSON
      rw [hnone]
    · unfold handleZoomToShape
      rw [hnone]

/-- C3 witness: resolution evaluated at the empty state (no shape: export
alerts, recenter is the identity) and at a state whose buffer has 3 points. -/
theorem c3_active_shape_resolution_witness :
    activeShape emptyState = none ∧
    handleExportGeoJSON emptyState = (none, some "No polygon to export.") ∧
    handleZoomToShape emptyState = (emptyState, none) ∧
    activeShape { emptyState with drawingPoints := [⟨0, 0⟩, ⟨0, 1⟩, ⟨1, 0⟩] }
      = some [⟨0, 0⟩, ⟨0, 1⟩, ⟨1, 0⟩] := by
  have h1 := (c3_active_shape_resolution emptyState).2.2 (by simp [emptyState])
    (by simp [emptyState])
  have h2 := (c3_active_shape_resolution
    { emptyState with drawingPoints := [⟨0, 0⟩, ⟨0, 1⟩, ⟨1, 0⟩] }).2.1
    (by simp [emptyState]) (by simp)
  exact ⟨h1.1, h1.2.1, h1.2.2, by simpa using h2⟩

/-- C10: when neither the confirmed polygon nor the in-progress buffer has 3
vertices, the recenter-to-shape handler returns the state unchanged and emits
no message. -/
theorem c10_recenter_no_shape_noop (s : AppState)
    (h1 : s.drawnPolygon.length < 3) (h2 : s.drawingPoints.length < 3) :
    handleZoomToShape s = (s, none) := by
  unfold handleZoomToShape activeShape
  rw [if_neg (by omega), if_neg (by omega)]

/-- C10 witness: the recenter handler evaluated at the initial state. -/
theorem c10_recenter_no_shape_noop_witness :
    ({ emptyState with mapCenter := ⟨5, 6⟩, zoom := 9 } : AppState).drawnPolygon.length < 3 ∧
    handleZoomToShape { emptyState with mapCenter := ⟨5, 6⟩, zoom := 9 }
      = ({ emptyState with mapCenter := ⟨5, 6⟩, zoom := 9 }, none) :=
  ⟨by simp [emptyState],
    c10_recenter_no_shape_noop _ (by simp [emptyState]) (by simp [emptyState])⟩

/-- C8: when the selected file is not valid JSON, or its parsed structure
yields no recognizable polygon geometry (including a thrown access on a
`Feature` with `null` geometry and an empty coordinates array), the import
handler shows an alert and returns the state completely unchanged. -/
theorem c8_malformed_import_no_mutation (doc? : Option GeoDoc) (fileName : String)
    (s : AppState) (h : importRejected doc? = true) :
    ∃ msg, handleFileChange doc? fileName s = (s, some msg) := by
  cases doc? with
  | none => exact ⟨"Failed to read GeoJSON file.", rfl⟩
  | some doc =>
    cases hext : extractCoords doc with
    | error msg =>
      refine ⟨msg, ?_⟩
      simp [handleFileChange, hext]
    | ok oc =>
      cases oc with
      | none =>
        exact ⟨"No polygon geometry found in GeoJSON.", by simp [handleFileChange, hext]⟩
      | some coords =>
        simp only [importRejected, hext] at h
        have hc : coords = [] := by simpa using h
        exact ⟨"No polygon geometry found in GeoJSON.", by simp [handleFileChange, hext, hc]⟩

/-- C8 witness: a document with no polygon geometry and an invalid-JSON file,
both rejected with an alert and an unchanged state. -/
theorem c8_malformed_import_no_mutation_witness :
    importRejected (some GeoDoc.otherDoc) = true ∧
    (∃ msg, handleFileChange (some GeoDoc.otherDoc) "bad.geojson" emptyState
      = (emptyState, some msg)) ∧
    (∃ msg, handleFileChange none "notjson.txt" emptyState = (emptyState, some msg)) :=
  ⟨rfl, c8_malformed_import_no_mutation _ _ _ rfl,
    c8_malformed_import_no_mutation none "notjson.txt" emptyState rfl⟩

/-- C9: a successful import (extraction produced a nonempty coordinates array
whose outer ring is nonempty) replaces the confirmed polygon with the outer
(first) ring, each `[lng, lat]` position swapped into a `{lat, lng}` point,
empties the buffer, forces drawing off, recenters the viewport on the ring's
bounding-box midpoint at zoom 12, sets the selected-area label to the file
name, and emits no alert; for a `MultiPolygon` only the first member polygon
is extracted. -/
theorem c9_import_success (doc : GeoDoc) (fileName : String) (s : AppState)
    (coords : List (List (List ℝ)))
    (hext : extractCoords doc = Except.ok (some coords)) (hne : coords ≠ [])
    (hring : coords.getD 0 [] ≠ []) :
    handleFileChange (some doc) fileName s
      = ({ s with
            drawnPolygon := (coords.getD 0 []).map posToPoint,
            drawingPoints := [],
            isDrawing := false,
            activeDrawTool := none,
            mapCenter := bboxCenter ((coords.getD 0 []).map posToPoint),
            zoom := 12,
            selectedArea := fileName }, none) ∧
    (∀ (r : List (List (List ℝ))) (rs : List (List (List (List ℝ)))),
      extractCoords (GeoDoc.feature (some (Geom.multiPolygon (r :: rs))))
        = Except.ok (some r)) := by
  constructor
  · have hlen : ¬coords.length = 0 := by
      have := List.length_pos.mpr hne
      omega
    simp [handleFileChange, hext, hlen]
  · intro r rs
    rfl

/-- C9 witness: importing a `FeatureCollection` whose polygon-bearing feature
is a two-member `MultiPolygon`; only the first member's outer ring
`[[0,0],[2,0],[2,2]]` is installed (swapped to `{lat,lng}`), and the viewport
moves to the bounding-box midpoint `(1,1)` at zoom 12. -/
theorem c9_import_success_witness :
    handleFileChange (some (GeoDoc.featureCollection
        [⟨none⟩, ⟨some (Geom.multiPolygon
          [[[[0, 0], [2, 0], [2, 2]]], [[[9, 9], [9, 8], [8, 8]]]])⟩]))
      "area.geojson" emptyState
      = ({ emptyState with
            drawnPolygon := [⟨0, 0⟩, ⟨0, 2⟩, ⟨2, 2⟩],
            drawingPoints := [],
            isDrawing := false,
            activeDrawTool := none,
            mapCenter := ⟨1, 1⟩,
            zoom := 12,
            selectedArea := "area.geojson" }, none) := by
  rw [(c9_import_success (GeoDoc.featureCollection
        [⟨none⟩, ⟨some (Geom.multiPolygon
          [[[[0, 0], [2, 0], [2, 2]]], [[[9, 9], [9, 8], [8, 8]]]])⟩])
      "area.geojson" emptyState [[[0, 0], [2, 0], [2, 2]]]
      rfl (by simp) (by simp)).1]
  have hmap : ([[(0:ℝ), 0], [2, 0], [2, 2]] : List (List ℝ)).map posToPoint
      = [⟨0, 0⟩, ⟨0, 2⟩, ⟨2, 2⟩] := rfl
  have hbb : bboxCenter [⟨0, 0⟩, ⟨0, 2⟩, (⟨2, 2⟩ : LatLng)] = ⟨1, 1⟩ := by
    simp only [bboxCenter, jsMin, jsMax, List.map, List.foldl]
    have h1 : min (0:ℝ) 0 = 0 := by norm_num
    have h2 : min (0:ℝ) 2 = 0 := by norm_num
    have h3 : max (0:ℝ) 0 = 0 := by norm_num
    have h4 : max (0:ℝ) 2 = 2 := by norm_num
    have h5 : min (0:ℝ) 2 = 0 := by norm_num
    have h6 : max (0:ℝ) 2 = 2 := by norm_num
    rw [h1, h2, h3, h4]
    norm_num
  simp only [List.getD_cons_zero, hmap, hbb]

/-- C2 (counterexample): the claim says export-then-import preserves the vertex
count.  Export appends the first vertex at the end to close the GeoJSON ring
and import does not strip it: round-tripping the 3-vertex confirmed polygon
`[(0,0),(0,1),(1,0)]` yields a 4-vertex confirmed polygon. -/
theorem c2_counterexample :
    (handleFileChange
        (handleExportGeoJSON { emptyState with
            drawnPolygon := [⟨0, 0⟩, ⟨0, 1⟩, ⟨1, 0⟩] }).1
        "roundtrip.geojson"
        { emptyState with
            drawnPolygon := [⟨0, 0⟩, ⟨0, 1⟩, ⟨1, 0⟩] }).1.drawnPolygon.length = 4 ∧
    ({ emptyState with
        drawnPolygon := [⟨0, 0⟩, ⟨0, 1⟩, ⟨1, 0⟩] } : AppState).drawnPolygon.length = 3 := by
  constructor
  · simp [handleExportGeoJSON, activeShape, emptyState, handleFileChange, extractCoords,
      posToPoint]
  · simp

/-- C2 (amended): exporting the active shape (necessarily of n ≥ 3 vertices)
and importing the produced document yields the original vertex sequence with
the first vertex appended once more at the end (the GeoJSON closing vertex is
not stripped on import), so the confirmed polygon has n + 1 vertices; and
the importing step emits no alert. -/
theorem c2_roundtrip_appends_closing_vertex (s : AppState) (shape : List LatLng)
    (fileName : String) (hs : activeShape s = some shape) :
    ∃ doc, handleExportGeoJSON s = (some doc, none) ∧
      (handleFileChange (some doc) fileName s).1.drawnPolygon
        = shape ++ [shape.getD 0 ⟨0, 0⟩] ∧
      (handleFileChange (some doc) fileName s).1.drawnPolygon.length = shape.length + 1 ∧
      (handleFileChange (some doc) fileName s).2 = none := by
  have hlen := activeShape_length s shape hs
  obtain ⟨a, t, rfl⟩ : ∃ a t, shape = a :: t := by
    cases shape with
    | nil => simp at hlen
    | cons a t => exact ⟨a, t, rfl⟩
  simp only [List.length_cons] at hlen
  have hpoly : ((((a :: t).map fun p => [p.lng, p.lat]) ++ [[a.lng, a.lat]]).map posToPoint)
      = (a :: t) ++ [a] := by
    rw [List.map_append, List.map_map]
    have hcomp : (posToPoint ∘ fun p : LatLng => [p.lng, p.lat]) = id := funext fun p => rfl
    rw [hcomp, List.map_id]
    rfl
  have hext : extractCoords (GeoDoc.feature (some (Geom.polygon
        [((a :: t).map fun p => [p.lng, p.lat]) ++ [[a.lng, a.lat]]])))
      = Except.ok (some [((a :: t).map fun p => [p.lng, p.lat]) ++ [[a.lng, a.lat]]]) := rfl
  have hfc : handleFileChange (some (GeoDoc.feature (some (Geom.polygon
        [((a :: t).map fun p => [p.lng, p.lat]) ++ [[a.lng, a.lat]]])))) fileName s
      = ({ s with
            drawnPolygon := (a :: t) ++ [a],
            drawingPoints := [],
            isDrawing := false,
            activeDrawTool := none,
            mapCenter := bboxCenter ((a :: t) ++ [a]),
            zoom := 12,
            selectedArea := fileName }, none) := by
    simp only [handleFileChange, hext]
    rw [if_neg (by simp)]
    simp only [List.getD_cons_zero, hpoly]
  refine ⟨GeoDoc.feature (some (Geom.polygon
    [((a :: t).map fun p => [p.lng, p.lat]) ++ [[a.lng, a.lat]]])), ?_, ?_, ?_, ?_⟩
  · simp only [handleExportGeoJSON, hs]
    rw [if_neg (by simp only [List.length_cons]; omega)]
    simp
  · rw [hfc]
    simp
  · rw [hfc]
    simp
  · rw [hfc]

/-- C2 witness: the amended round-trip evaluated on the confirmed polygon
`[(0,0),(0,1),(1,0)]`. -/
theorem c2_roundtrip_appends_closing_vertex_witness :
    activeShape { emptyState with drawnPolygon := [⟨0, 0⟩, ⟨0, 1⟩, ⟨1, 0⟩] }
      = some [⟨0, 0⟩, ⟨0, 1⟩, ⟨1, 0⟩] ∧
    ∃ doc, handleExportGeoJSON { emptyState with
        drawnPolygon := [⟨0, 0⟩, ⟨0, 1⟩, ⟨1, 0⟩] } = (some doc, none) ∧
      (handleFileChange (some doc) "rt.geojson" { emptyState with
          drawnPolygon := [⟨0, 0⟩, ⟨0, 1⟩, ⟨1, 0⟩] }).1.drawnPolygon
        = [⟨0, 0⟩, ⟨0, 1⟩, ⟨1, 0⟩] ++ [⟨0, 0⟩] := by
  have hs : activeShape { emptyState with drawnPolygon := [⟨0, 0⟩, ⟨0, 1⟩, ⟨1, 0⟩] }
      = some [⟨0, 0⟩, ⟨0, 1⟩, ⟨1, 0⟩] := by
    simp [activeShape, emptyState]
  refine ⟨hs, ?_⟩
  obtain ⟨doc, h1, h2, h3, h4⟩ :=
    c2_roundtrip_appends_closing_vertex _ _ "rt.geojson" hs
  exact ⟨doc, h1, by simpa using h2⟩

/-- C5 (counterexample): the claim asserts `distanceKm a b = 0 ↔ a = b` for all
latitudes in [-90, 90] and longitudes in [-180, 180].  At the antimeridian the
two admissible representations `(0, -180)` and `(0, 180)` of the same physical
point are distinct yet at haversine distance 0. -/
theorem c5_counterexample :
    distanceKm ⟨0, -180⟩ ⟨0, 180⟩ = 0 ∧ (⟨0, -180⟩ : LatLng) ≠ ⟨0, 180⟩ := by
  constructor
  · have hsi : haversineTerm ⟨0, -180⟩ ⟨0, 180⟩ = 0 := by
      show Real.sin (toRad ((0:ℝ) - 0) / 2) * Real.sin (toRad ((0:ℝ) - 0) / 2) +
          Real.cos (toRad 0) * Real.cos (toRad 0) * Real.sin (toRad ((180:ℝ) - -180) / 2) *
            Real.sin (toRad ((180:ℝ) - -180) / 2) = 0
      rw [show toRad ((0:ℝ) - 0) = 0 by unfold toRad; ring,
        show toRad ((180:ℝ) - -180) / 2 = Real.pi by unfold toRad; ring, Real.sin_pi]
      norm_num
    simp only [distanceKm, hsi]
    rw [Real.sqrt_zero, show (1:ℝ) - 0 = 1 by norm_num, Real.sqrt_one, atan2_zero_one]
    ring
  · intro h
    have h2 := congrArg LatLng.lng h
    norm_num at h2

/-- C5 (amended): `distanceKm` is symmetric for all points, and it vanishes
exactly on equal points provided latitudes lie strictly inside (-90, 90) and
longitudes in [-180, 180) — at the poles and at the antimeridian seam two
distinct coordinate pairs denote the same physical point and get distance 0. -/
theorem c5_distance_symm_and_zero_iff (a b : LatLng) :
    distanceKm a b = distanceKm b a ∧
    (-90 < a.lat → a.lat < 90 → -90 < b.lat → b.lat < 90 →
      -180 ≤ a.lng → a.lng < 180 → -180 ≤ b.lng → b.lng < 180 →
      (distanceKm a b = 0 ↔ a = b)) := by
  refine ⟨distanceKm_comm a b, ?_⟩
  intro ha1 ha2 hb1 hb2 ha3 ha4 hb3 hb4
  rw [distanceKm_eq_zero_iff_term a b
    (haversineTerm_nonneg a b (by linarith) (by linarith) (by linarith) (by linarith))]
  exact haversineTerm_eq_zero_iff a b ha1 ha2 hb1 hb2 ha3 ha4 hb3 hb4

/-- C5 witness: symmetry at `(10,20)/(30,40)` and zero-at-equal at `(10,20)`. -/
theorem c5_distance_symm_and_zero_iff_witness :
    distanceKm ⟨10, 20⟩ ⟨30, 40⟩ = distanceKm ⟨30, 40⟩ ⟨10, 20⟩ ∧
    distanceKm ⟨10, 20⟩ ⟨10, 20⟩ = 0 := by
  have h1 := (c5_distance_symm_and_zero_iff ⟨10, 20⟩ ⟨30, 40⟩).1
  have h2 := (c5_distance_symm_and_zero_iff ⟨10, 20⟩ ⟨10, 20⟩).2
    (by norm_num) (by norm_num) (by norm_num) (by norm_num)
    (by norm_num) (by norm_num) (by norm_num) (by norm_num)
  exact ⟨h1, h2.mpr rfl⟩

/-- C6: `perimeterKm` and `areaKm2` are each invariant under rotation of the
vertex list and under reversal of the vertex order, for every finite vertex
list. -/
theorem c6_perimeter_area_invariance (l : List LatLng) (k : ℕ) :
    perimeterKm (l.rotate k) = perimeterKm l ∧
    perimeterKm l.reverse = perimeterKm l ∧
    areaKm2 (l.rotate k) = areaKm2 l ∧
    areaKm2 l.reverse = areaKm2 l :=
  ⟨perimeterKm_rotate l k, perimeterKm_reverse l, areaKm2_rotate l k, areaKm2_reverse l⟩

/-- C7: for valid latitudes the haversine intermediate term `si` lies in
[0, 1], so both square roots receive nonnegative arguments and the
inverse-trigonometric step stays inside its domain (in exact real arithmetic
the term never overshoots — the clamp the spec demands guards only against
floating-point overshoot); no division by zero occurs (`atan2` divides only
when its second argument is positive); and duplicate consecutive vertices
contribute zero-length edges in all three geometry functions:
`distanceKm p p = 0` and duplicating a vertex changes neither perimeter nor
area. -/
theorem c7_haversine_domain_duplicates (a b : LatLng)
    (ha1 : -90 ≤ a.lat) (ha2 : a.lat ≤ 90) (hb1 : -90 ≤ b.lat) (hb2 : b.lat ≤ 90) :
    0 ≤ haversineTerm a b ∧ haversineTerm a b ≤ 1 ∧ 0 ≤ 1 - haversineTerm a b ∧
    (∀ p : LatLng, distanceKm p p = 0) ∧
    (∀ (l1 l2 : List LatLng) (p : LatLng),
      perimeterKm (l1 ++ p :: p :: l2) = perimeterKm (l1 ++ p :: l2)) ∧
    (∀ (l1 l2 : List LatLng) (p : LatLng),
      areaKm2 (l1 ++ p :: p :: l2) = areaKm2 (l1 ++ p :: l2)) := by
  have hle := haversineTerm_le_one a b ha1 ha2 hb1 hb2
  refine ⟨haversineTerm_nonneg a b ha1 ha2 hb1 hb2, hle, by linarith,
    distanceKm_self, ?_, ?_⟩
  · intro l1 l2 p
    have hdup := cyclicSum_dup (⟨0, 0⟩ : LatLng) distanceKm l1 l2 p
    rw [distanceKm_self, add_zero] at hdup
    unfold perimeterKm
    by_cases h2 : (l1 ++ p :: l2).length < 2
    · have h0 : l1.length = 0 ∧ l2.length = 0 := by
        simp only [List.length_append, List.length_cons] at h2
        omega
      obtain rfl := List.length_eq_zero.mp h0.1
      obtain rfl := List.length_eq_zero.mp h0.2
      rw [if_neg (show ¬(([] ++ p :: p :: [] : List LatLng)).length < 2 by simp),
        if_pos (show (([] ++ p :: [] : List LatLng)).length < 2 by simp), hdup]
      simp [cyclicSum, distanceKm_self]
    · have h2' : ¬(l1 ++ p :: p :: l2).length < 2 := by
        simp only [List.length_append, List.length_cons] at h2 ⊢
        omega
      rw [if_neg h2', if_neg h2, hdup]
  · intro l1 l2 p
    simp only [areaKm2]
    have hm : (l1 ++ p :: p :: l2).map project
        = l1.map project ++ project p :: project p :: l2.map project := by simp
    have hm2 : (l1 ++ p :: l2).map project
        = l1.map project ++ project p :: l2.map project := by simp
    have hdup := cyclicSum_dup ((0, 0) : ℝ × ℝ) cross (l1.map project) (l2.map project)
      (project p)
    have hcp : cross (project p) (project p) = 0 := by unfold cross; ring
    rw [hcp, add_zero] at hdup
    by_cases h3 : (l1 ++ p :: l2).length < 3
    · by_cases h4 : (l1 ++ p :: p :: l2).length < 3
      · rw [if_pos h4, if_pos h3]
      · rw [if_neg h4, if_pos h3]
        have hlen2 : ((l1 ++ p :: l2).map project).length = 2 := by
          rw [List.length_map]
          simp only [List.length_append, List.length_cons] at h3 h4 ⊢
          omega
        obtain ⟨A, B, hAB⟩ := List.length_eq_two.mp hlen2
        have hz : cyclicSum ((0, 0) : ℝ × ℝ) cross ((l1 ++ p :: p :: l2).map project) = 0 := by
          rw [hm, hdup, ← hm2, hAB]
          unfold cyclicSum
          rw [show ([A, B] : List (ℝ × ℝ)).length = 2 from rfl,
            Finset.sum_range_succ, Finset.sum_range_succ, Finset.sum_range_zero]
          norm_num [List.getD_cons_zero, List.getD_cons_succ]
          unfold cross
          ring
        rw [hz]
        simp
    · have h4 : ¬(l1 ++ p :: p :: l2).length < 3 := by
        simp only [List.length_append, List.length_cons] at h3 ⊢
        omega
      rw [if_neg h4, if_neg h3, hm, hdup, ← hm2]

/-- C7 witness: the `si` bounds at `(10,20)/(30,40)` and duplicate-vertex
insensitivity of the perimeter on a concrete quadrilateral. -/
theorem c7_haversine_domain_duplicates_witness :
    0 ≤ haversineTerm ⟨10, 20⟩ ⟨30, 40⟩ ∧ haversineTerm ⟨10, 20⟩ ⟨30, 40⟩ ≤ 1 ∧
    perimeterKm [⟨0, 0⟩, ⟨0, 1⟩, ⟨0, 1⟩, ⟨1, 0⟩] = perimeterKm [⟨0, 0⟩, ⟨0, 1⟩, ⟨1, 0⟩] := by
  have h := c7_haversine_domain_duplicates ⟨10, 20⟩ ⟨30, 40⟩ (by norm_num) (by norm_num)
    (by norm_num) (by norm_num)
  refine ⟨h.1, h.2.1, ?_⟩
  have h5 := h.2.2.2.2.1 [⟨0, 0⟩] [⟨1, 0⟩] ⟨0, 1⟩
  simpa using h5

end DroneMap
